import Mathlib

/-!
Shallow embedding of the MCP-WIP widget bridge:
the widget registry and renderer (src/sdks/react/registry.ts and the
WidgetRenderer component) and the chat turn orchestrator
(src/example/chat/app/routes/home.tsx).

Parameter values (TypeScript `any`) are modelled by a type parameter `V`.
-/

/-! ## Parameter normalization (WidgetRenderer, registry.ts lines 139-142)

`Object.fromEntries(parameters.map(p => [p.name, p.value]))` builds a JS
object by inserting the pairs left to right; a later assignment to the
same key overwrites the earlier one.  The resulting object is observed
through key lookup, modelled as `String → Option V`. -/

/-- A single `\x7b name, value \x7d` parameter pair as received from the
backend (type `WParams` in WidgetRenderer). -/
structure WParams (V : Type) where
  name : String
  value : V
deriving DecidableEq

/-- JS object built by `Object.fromEntries`: insert the pairs in order,
later assignments to the same key overwrite earlier ones; observe the
object through key lookup. -/
def fromEntries {V : Type} (l : List (String × V)) : String → Option V :=
  l.foldl (fun acc p => fun k => if k = p.1 then some p.2 else acc k) (fun _ => none)

/-- Structural-recursion form of `fromEntries` lookup: the value of the
last pair carrying the key, if any (helper for proofs). -/
def lookupLast {V : Type} : List (String × V) → String → Option V
  | [], _ => none
  | p :: rest, k =>
    match lookupLast rest k with
    | some v => some v
    | none => if k = p.1 then some p.2 else none

theorem foldl_assign_eq {V : Type} (l : List (String × V)) (acc : String → Option V)
    (k : String) :
    l.foldl (fun acc p => fun k => if k = p.1 then some p.2 else acc k) acc k
      = match lookupLast l k with
        | some v => some v
        | none => acc k := by
  induction l generalizing acc with
  | nil => rfl
  | cons p rest ih =>
    simp only [List.foldl_cons, lookupLast]
    rw [ih]
    cases h : lookupLast rest k with
    | some v => rfl
    | none =>
      by_cases hk : k = p.1 <;> simp [hk]

theorem fromEntries_eq_lookupLast {V : Type} (l : List (String × V)) (k : String) :
    fromEntries l k = lookupLast l k := by
  unfold fromEntries
  rw [foldl_assign_eq]
  cases lookupLast l k <;> rfl

theorem lookupLast_isSome_iff {V : Type} (l : List (String × V)) (k : String) :
    (lookupLast l k).isSome ↔ k ∈ l.map Prod.fst := by
  induction l with
  | nil => simp [lookupLast]
  | cons p rest ih =>
    simp only [lookupLast, List.map_cons, List.mem_cons]
    cases h : lookupLast rest k with
    | some v =>
      simp only [Option.isSome_some, true_iff]
      right
      rw [← ih, h]
      rfl
    | none =>
      rw [h] at ih
      by_cases hk : k = p.1 <;> simp [hk, ← ih]

theorem lookupLast_eq_find_reverse {V : Type} (l : List (String × V)) (k : String) :
    lookupLast l k = (l.reverse.find? (fun p => p.1 == k)).map Prod.snd := by
  induction l with
  | nil => rfl
  | cons p rest ih =>
    simp only [lookupLast, List.reverse_cons]
    rw [List.find?_append, ih]
    cases h : List.find? (fun p => p.1 == k) rest.reverse with
    | some q => simp
    | none =>
      simp only [Option.map_none, Option.none_or]
      by_cases hk : k = p.1
      · rw [List.find?_cons_of_pos]
        · simp [hk]
        · simp [hk]
      · rw [List.find?_cons_of_neg]
        · simp [hk]
        · simp only [beq_iff_eq]
          exact fun he => hk he.symm

theorem lookupLast_eq_some_iff_of_nodup {V : Type} (l : List (String × V)) (k : String) :
    (l.map Prod.fst).Nodup → ∀ v : V, (lookupLast l k = some v ↔ (k, v) ∈ l) := by
  induction l with
  | nil =>
    intro _ v
    simp [lookupLast]
  | cons p rest ih =>
    intro hnd v
    simp only [List.map_cons, List.nodup_cons] at hnd
    obtain ⟨hp, hrest⟩ := hnd
    have ihr := ih hrest
    simp only [lookupLast, List.mem_cons]
    cases h : lookupLast rest k with
    | some u =>
      have hu : (k, u) ∈ rest := (ihr u).mp h
      have hkmem : k ∈ rest.map Prod.fst := List.mem_map.mpr ⟨(k, u), hu, rfl⟩
      show some u = some v ↔ ((k, v) = p ∨ (k, v) ∈ rest)
      constructor
      · intro he
        right
        have hv : u = v := Option.some.inj he
        rw [← hv]
        exact hu
      · intro he
        cases he with
        | inl he =>
          exact absurd ((congrArg Prod.fst he) ▸ hkmem) hp
        | inr he =>
          exact h.symm.trans ((ihr v).mpr he)
    | none =>
      have hnot : (k, v) ∉ rest := by
        intro hm
        have h2 := (ihr v).mpr hm
        rw [h] at h2
        exact Option.noConfusion h2
      show (if k = p.1 then some p.2 else none) = some v ↔ ((k, v) = p ∨ (k, v) ∈ rest)
      by_cases hk : k = p.1
      · simp only [if_pos hk]
        constructor
        · intro he
          left
          exact Prod.ext_iff.mpr ⟨hk, (Option.some.inj he).symm⟩
        · intro he
          cases he with
          | inl he => exact congrArg some (congrArg Prod.snd he).symm
          | inr he => exact absurd he hnot
      · simp only [if_neg hk]
        constructor
        · intro he
          exact Option.noConfusion he
        · intro he
          cases he with
          | inl he => exact absurd (congrArg Prod.fst he) hk
          | inr he => exact absurd he hnot

theorem lookupLast_perm_of_nodup {V : Type} (l l' : List (String × V))
    (hnd : (l.map Prod.fst).Nodup) (hp : l.Perm l') (k : String) :
    lookupLast l k = lookupLast l' k := by
  have hnd' : (l'.map Prod.fst).Nodup := (hnd.perm (hp.map Prod.fst))
  cases h : lookupLast l k with
  | some v =>
    have h1 : (k, v) ∈ l := (lookupLast_eq_some_iff_of_nodup l k hnd v).mp h
    have h2 : (k, v) ∈ l' := hp.mem_iff.mp h1
    exact ((lookupLast_eq_some_iff_of_nodup l' k hnd' v).mpr h2).symm
  | none =>
    cases h' : lookupLast l' k with
    | none => rfl
    | some v =>
      exfalso
      have h1 : (k, v) ∈ l' := (lookupLast_eq_some_iff_of_nodup l' k hnd' v).mp h'
      have h2 : (k, v) ∈ l := hp.mem_iff.mpr h1
      have h3 := (lookupLast_eq_some_iff_of_nodup l k hnd v).mpr h2
      rw [h] at h3
      exact Option.noConfusion h3

/-! ## Registry (src/sdks/react/registry.ts) -/

/-- Visualization mode of a widget (`'small'|'both'|'indipendent'`,
spelling as in the source). -/
inductive Visualization where
  | small
  | both
  | indipendent
deriving DecidableEq

/-- A widget component as registered in the registry.  The optional
lifecycle hooks are modelled by presence flags where only presence
matters for the bridge (their bodies are widget business logic, out of
scope). -/
structure WidgetComponent (V : Type) where
  widgetName : String
  description : String
  visualization : Visualization
  hasInitWidget : Bool
deriving DecidableEq

/-- The registry contents: a JS `Record<WidgetId, WidgetComponent>`
modelled as the insertion-ordered list of its assignments (lookup is
last-write-wins, as for any JS object). -/
abbrev WidgetRecord (V : Type) := List (String × WidgetComponent V)

/-- `registerWidgets`: `Object.assign(registry, entries)` — the new
entries are assigned after (and hence override) the existing ones. -/
def registerWidgets {V : Type} (entries : WidgetRecord V) (reg : WidgetRecord V) :
    WidgetRecord V :=
  reg ++ entries

/-- `getWidget(id)`: `registry[id]`, `undefined` when absent. -/
def getWidget {V : Type} (reg : WidgetRecord V) (id : String) :
    Option (WidgetComponent V) :=
  fromEntries reg id

/-! ## WidgetRenderer (registry.ts lines 100-162) -/

/-- The normalized parameter object passed to a widget. -/
abbrev ParamMap (V : Type) := String → Option V

/-- `Object.fromEntries(parameters.map(p => [p.name, p.value]))`. -/
def paramObjMap {V : Type} (l : List (WParams V)) : ParamMap V :=
  fromEntries (l.map fun p => (p.name, p.value))

/-- `const paramObj = Array.isArray(parameters) ? Object.fromEntries(...)
: undefined`. -/
def paramObjOf {V : Type} (parameters : Option (List (WParams V))) :
    Option (ParamMap V) :=
  parameters.map paramObjMap

/-- One recorded invocation of a widget's `initWidget` hook: the uri the
renderer resolved and the parameter object passed as first argument. -/
structure InitCall (V : Type) where
  uri : String
  params : Option (ParamMap V)

/-- The internal view of a mounted `WidgetRenderer` instance: the current
`uri` prop and the `params` `useState` state. -/
structure RendererState (V : Type) where
  uri : String
  params : Option (ParamMap V)

/-- Events a mounted `WidgetRenderer` instance can receive: a parent
re-render with (possibly new) props, or the widget invoking the
`setParams` callback handed to `initWidget`. -/
inductive RendererInput (V : Type) where
  | props (uri : String) (parameters : Option (List (WParams V)))
  | setParams (p : Option (ParamMap V))

/-- The effect body `Widget?.initWidget?.(params, setParams)`: the hook
fires exactly when the uri resolves and the resolved widget declares
`initWidget`. -/
def initCallsOf {V : Type} (reg : WidgetRecord V) (uri : String)
    (params : Option (ParamMap V)) : List (InitCall V) :=
  match getWidget reg uri with
  | some w => if w.hasInitWidget then [⟨uri, params⟩] else []
  | none => []

/-- Mounting `<WidgetRenderer uri parameters />`: `useState(paramObj)`
seeds the state from the normalized props, and the `useEffect` with
dependency `[uri]` runs once after the first render. -/
def rendererMount {V : Type} (reg : WidgetRecord V) (uri : String)
    (parameters : Option (List (WParams V))) : RendererState V × List (InitCall V) :=
  let params := paramObjOf parameters
  (⟨uri, params⟩, initCallsOf reg uri params)

/-- One subsequent render of the mounted instance.  A parent re-render
updates the `uri` prop; the `parameters` prop is ignored after mount
(`useState` keeps its state), and the effect re-runs exactly when the
`[uri]` dependency changed.  `setParams` replaces the state and
re-renders with the same uri, so the effect does not re-run. -/
def rendererStep {V : Type} (reg : WidgetRecord V) (st : RendererState V) :
    RendererInput V → RendererState V × List (InitCall V)
  | .props u _ps =>
    if u = st.uri then (⟨u, st.params⟩, [])
    else (⟨u, st.params⟩, initCallsOf reg u st.params)
  | .setParams p => (⟨st.uri, p⟩, [])

/-- Run a mounted renderer instance through a list of inputs, collecting
every `initWidget` invocation in order. -/
def rendererRunFrom {V : Type} (reg : WidgetRecord V) (st : RendererState V) :
    List (RendererInput V) → RendererState V × List (InitCall V)
  | [] => (st, [])
  | i :: rest =>
    let next := rendererStep reg st i
    let tail := rendererRunFrom reg next.1 rest
    (tail.1, next.2 ++ tail.2)

def rendererRun {V : Type} (reg : WidgetRecord V) (uri : String)
    (parameters : Option (List (WParams V))) (inputs : List (RendererInput V)) :
    RendererState V × List (InitCall V) :=
  let start := rendererMount reg uri parameters
  let tail := rendererRunFrom reg start.1 inputs
  (tail.1, start.2 ++ tail.2)

/-- What `WidgetRenderer` returns from a render pass: the fallback
`❌ Unknown widget: ...` div when the uri is not registered, otherwise
`<Widget parameters=\x7bparams\x7d />`. -/
inductive RenderResult (V : Type) where
  | fallback (text : String)
  | widget (uri : String) (parameters : Option (ParamMap V))

/-- The render pass of `WidgetRenderer` for a given uri and current
params state. -/
def widgetRendererView {V : Type} (reg : WidgetRecord V) (uri : String)
    (params : Option (ParamMap V)) : RenderResult V :=
  match getWidget reg uri with
  | none => .fallback ("❌ Unknown widget: " ++ uri)
  | some _ => .widget uri params

/-- The sequence of uri values taken by uri-changing `props` events, used
to state "once per distinct identifier change". -/
def uriChanges {V : Type} (uri : String) : List (RendererInput V) → List String
  | [] => []
  | .props u _ :: rest => if u = uri then uriChanges uri rest else u :: uriChanges u rest
  | .setParams _ :: rest => uriChanges uri rest

/-- Whether the uri resolves to a widget that declares `initWidget`. -/
def hasHook {V : Type} (reg : WidgetRecord V) (uri : String) : Bool :=
  match getWidget reg uri with
  | some w => w.hasInitWidget
  | none => false

/-! ## Chat turn orchestrator (src/example/chat/app/routes/home.tsx) -/

/-- `ChatRole` of home.tsx. -/
inductive ChatRole where
  | user
  | assistant
  | tool
  | error
  | widget
deriving DecidableEq

/-- The renderable content of a chat message: plain text, a
`<WidgetRenderer uri parameters />` element (identified by its props), or
the tool-output block built for a tool entry. -/
inductive MsgContent (V : Type) where
  | text (s : String)
  | widgetElem (uri : String) (parameters : Option (List (WParams V)))
  | toolElem (tool : String) (result : String)
deriving DecidableEq

/-- A `ChatMessage` of home.tsx. -/
structure ChatMessage (V : Type) where
  role : ChatRole
  content : MsgContent V
deriving DecidableEq

/-- The orchestrator state the claims are about: the ordered message log
and `openWidgetUri`. -/
structure HomeState (V : Type) where
  messages : List (ChatMessage V)
  openWidgetUri : Option String
deriving DecidableEq

/-- Reading `props.uri` back from a message's content, as
`handleRemoveWidget` does: a valid element whose `uri` prop is a string
yields that string, anything else yields `null`. -/
def extractUri {V : Type} : MsgContent V → Option String
  | .widgetElem uri _ => some uri
  | _ => none

/-- The identifier of the most recent widget message still present in the
log (searching backward), used to state the `openWidgetUri` invariant. -/
def lastWidgetUri {V : Type} (msgs : List (ChatMessage V)) : Option String :=
  match msgs.reverse.find? (fun m => m.role == ChatRole.widget) with
  | some m => extractUri m.content
  | none => none

/-- `handleAddWidget` (home.tsx lines 59-71): a picker selection.  An
unregistered uri returns early; otherwise a widget message (a
`WidgetRenderer` with no `parameters` prop) is appended and
`openWidgetUri` is set. -/
def handleAddWidget {V : Type} (reg : WidgetRecord V) (uri : String)
    (s : HomeState V) : HomeState V :=
  match getWidget reg uri with
  | none => s
  | some _ =>
    { messages := s.messages ++ [⟨.widget, .widgetElem uri none⟩]
      openWidgetUri := some uri }

/-- `handleRemoveWidget` (home.tsx lines 73-94): remove the last widget
message, then point `openWidgetUri` at the uri of the widget message now
most recent in the log, or clear it. -/
def handleRemoveWidget {V : Type} (s : HomeState V) : HomeState V :=
  match s.messages.reverse.findIdx? (fun m => m.role == ChatRole.widget) with
  | none => s
  | some lastWidgetIndex =>
    let actualIndex := s.messages.length - 1 - lastWidgetIndex
    let newMessages := s.messages.take actualIndex ++ s.messages.drop (actualIndex + 1)
    match newMessages.reverse.find? (fun m => m.role == ChatRole.widget) with
    | some m =>
      { messages := newMessages, openWidgetUri := extractUri m.content }
    | none =>
      { messages := newMessages, openWidgetUri := none }

/-- The shape an assistant `content` field decodes to
(`\x7buri, parameters, text\x7d`, §6 of the backend contract).  A missing
or empty `uri`/`text` field is uniformly represented by `""` (both are
falsy in the source's truthiness tests). -/
structure DecodedReply (V : Type) where
  uri : String
  parameters : Option (List (WParams V))
  text : String
deriving DecidableEq

/-- `JSON.parse` is a JS builtin; the orchestrator is parametric in its
outcome: `none` models a parse that throws. -/
abbrev Decoder (V : Type) := String → Option (DecodedReply V)

/-- home.tsx lines 174-205: what a successfully decoded assistant entry
contributes, given the raw content string (for the fall-through case):
the messages appended and the new `openWidgetUri`. -/
def applyParsed {V : Type} (parsed : DecodedReply V) (rawContent : String) :
    List (ChatMessage V) × Option String :=
  if parsed.uri ≠ "" then
    (⟨.widget, .widgetElem parsed.uri parsed.parameters⟩ ::
        (if parsed.text ≠ "" then [⟨.assistant, .text parsed.text⟩] else []),
      some parsed.uri)
  else if parsed.text ≠ "" then
    ([⟨.assistant, .text parsed.text⟩], none)
  else
    ([⟨.assistant, .text rawContent⟩], none)

/-- home.tsx lines 171-214: processing of one assistant entry.  The
guard `msg.content` skips a falsy (empty) content; a decode failure falls
through to the raw text with the pointer cleared; `w` is the incoming
`openWidgetUri`, returned unchanged when no `setOpenWidgetUri` runs. -/
def processAssistantEntry {V : Type} (decode : Decoder V) (content : String)
    (w : Option String) : List (ChatMessage V) × Option String :=
  if content = "" then ([], w)
  else
    match decode content with
    | some parsed => applyParsed parsed content
    | none => ([⟨.assistant, .text content⟩], none)

/-- One entry of the backend `/chat` reply array. -/
inductive BackendEntry where
  | tool (tool : String) (result : String)
  | assistant (content : String)
  | other
deriving DecidableEq

/-- home.tsx lines 141-217: processing of one reply entry inside the
`flatMap`.  Tool entries with a truthy result are appended as tool
messages (their JSON pretty-printing is cosmetic only); assistant entries
go through `processAssistantEntry`; anything else contributes nothing. -/
def processEntry {V : Type} (decode : Decoder V) (e : BackendEntry)
    (w : Option String) : List (ChatMessage V) × Option String :=
  match e with
  | .tool t r => if r = "" then ([], w) else ([⟨.tool, .toolElem t r⟩], w)
  | .assistant c => processAssistantEntry decode c w
  | .other => ([], w)

/-- Left-to-right processing of the reply array, threading the effect of
the `setOpenWidgetUri` calls (the last call wins). -/
def processEntries {V : Type} (decode : Decoder V) (entries : List BackendEntry)
    (w : Option String) : List (ChatMessage V) × Option String :=
  match entries with
  | [] => ([], w)
  | e :: rest =>
    let step := processEntry decode e w
    let tail := processEntries decode rest step.2
    (step.1 ++ tail.1, tail.2)

/-- The widget context value returned by `getWidgetContext`: a string or
an object (record), per the registry contract. -/
inductive CtxVal where
  | str (s : String)
  | obj (fields : List (String × String))
deriving DecidableEq

/-- The guard `context && Object.keys(context).length > 0` of home.tsx
line 110: a falsy value or a keyless object skips the injection call. -/
def ctxNonempty : Option CtxVal → Bool
  | none => false
  | some (.str s) => s ≠ ""
  | some (.obj fields) => fields ≠ []

/-- Outcomes of the external calls a `sendMessage` turn performs, each
modelled as an oracle (`Except.error` models a throw; for `/chat` it also
covers a non-ok response).  `contextResult` is the outcome of
`getWidget(openWidgetUri)?.getWidgetContext?.()`. -/
structure SendEnv (V : Type) where
  contextResult : Except Unit (Option CtxVal)
  injectionResult : Except Unit Unit
  chatResult : Except Unit (List BackendEntry)

/-- Observable outcome of one `sendMessage` call. -/
structure SendResult (V : Type) where
  state : HomeState V
  chatCalled : Bool
  chatMessage : Option String
  injectionAttempted : Bool

/-- JS `input.trim()`: drop whitespace characters from both ends of the
string (written over the character list so that it evaluates on concrete
inputs). -/
def jsTrim (s : String) : String :=
  ⟨((s.data.dropWhile Char.isWhitespace).reverse.dropWhile Char.isWhitespace).reverse⟩

/-- `sendMessage` (home.tsx lines 96-232).  The early return fires on a
blank input or while loading.  The context-injection block runs inside
its own try/catch whose failures are swallowed; the chat call is then
issued with the trimmed user message, and its reply entries (or the
generic error message, if it failed) are appended. -/
def sendMessage {V : Type} (decode : Decoder V) (env : SendEnv V) (input : String)
    (loading : Bool) (s : HomeState V) : SendResult V :=
  if jsTrim input = "" ∨ loading = true then
    ⟨s, false, none, false⟩
  else
    let userMessage := jsTrim input
    let msgs1 := s.messages ++ [⟨.user, .text userMessage⟩]
    let injectionAttempted :=
      match s.openWidgetUri with
      | none => false
      | some u =>
        if u = "" then false
        else
          match env.contextResult with
          | .error _ => false
          | .ok ctx => ctxNonempty ctx
    match env.chatResult with
    | .error _ =>
      ⟨⟨msgs1 ++ [⟨.error, .text "Failed to get response. Please try again."⟩],
          s.openWidgetUri⟩,
        true, some userMessage, injectionAttempted⟩
    | .ok entries =>
      let processed := processEntries decode entries s.openWidgetUri
      ⟨⟨msgs1 ++ processed.1, processed.2⟩, true, some userMessage, injectionAttempted⟩

/-! ## Open/remove operation sequences (for the `openWidgetUri` invariant) -/

/-- The operations of the open/remove invariant: a picker selection, a
decoded backend reply that opens a widget (non-empty uri), and the
remove-widget action. -/
inductive WidgetOp (V : Type) where
  | add (uri : String)
  | openReply (uri : String) (parameters : Option (List (WParams V))) (text : String)
  | remove
deriving DecidableEq

/-- Apply one operation to the orchestrator state.  `openReply` with an
empty uri is not an "open widget" operation and is a no-op here. -/
def applyOp {V : Type} (reg : WidgetRecord V) (s : HomeState V) :
    WidgetOp V → HomeState V
  | .add uri => handleAddWidget reg uri s
  | .openReply uri parameters text =>
    if uri = "" then s
    else
      let step := applyParsed (⟨uri, parameters, text⟩ : DecodedReply V) ""
      { messages := s.messages ++ step.1, openWidgetUri := step.2 }
  | .remove => handleRemoveWidget s

/-- Run a sequence of operations from a state. -/
def runOps {V : Type} (reg : WidgetRecord V) (ops : List (WidgetOp V))
    (s : HomeState V) : HomeState V :=
  ops.foldl (applyOp reg) s

/-- The initial orchestrator state: empty log, no open widget. -/
def initialHomeState {V : Type} : HomeState V := ⟨[], none⟩

/-! ## Fixtures used by witnesses -/

/-- A sample registered widget. -/
def sampleWidget : WidgetComponent Nat :=
  ⟨"Calendar", "a calendar widget", Visualization.both, true⟩

/-- A sample registry holding one widget. -/
def sampleRegistry : WidgetRecord Nat := [("wip://a", sampleWidget)]

/-! ## Claims about parameter normalization -/

/-- C3: for every parameter list (duplicate names included), the
renderer's normalization into a mapping is exactly what the renderer
computes (`paramObjOf`), has one entry per distinct name (a name is
present in the mapping iff it occurs in the list), and the value kept for
a duplicated name is the value of its last occurrence (the first match
when searching the list backward). -/
theorem c3_normalization_last_occurrence_wins {V : Type} (l : List (WParams V))
    (k : String) :
    paramObjOf (some l) = some (paramObjMap l) ∧
    ((paramObjMap l k).isSome ↔ k ∈ l.map WParams.name) ∧
    paramObjMap l k = (l.reverse.find? (fun p => p.name == k)).map WParams.value := by
  refine ⟨rfl, ?_, ?_⟩
  · unfold paramObjMap
    rw [fromEntries_eq_lookupLast, lookupLast_isSome_iff, List.map_map]
    exact Iff.rfl
  · unfold paramObjMap
    rw [fromEntries_eq_lookupLast, lookupLast_eq_find_reverse, ← List.map_reverse,
      List.find?_map, Option.map_map]
    rfl

/-- C8 counterexample: with a duplicated name the normalization is
neither lossless nor order-independent — the two orderings of
`x=1, x=2` are permutations of each other yet normalize to different
mappings, and the pair `x=1` is in the list while its value is not the
one kept. -/
theorem c8_counterexample :
    ([⟨"x", 1⟩, ⟨"x", 2⟩] : List (WParams Nat)).Perm [⟨"x", 2⟩, ⟨"x", 1⟩] ∧
    paramObjMap ([⟨"x", 1⟩, ⟨"x", 2⟩] : List (WParams Nat)) "x"
      ≠ paramObjMap ([⟨"x", 2⟩, ⟨"x", 1⟩] : List (WParams Nat)) "x" ∧
    (⟨"x", 1⟩ : WParams Nat) ∈ ([⟨"x", 1⟩, ⟨"x", 2⟩] : List (WParams Nat)) ∧
    paramObjMap ([⟨"x", 1⟩, ⟨"x", 2⟩] : List (WParams Nat)) "x" ≠ some 1 := by
  refine ⟨?_, ?_, ?_, ?_⟩ <;> decide

/-- C8 (amended): for every parameter list whose names are pairwise
distinct, the renderer's normalization is lossless (every pair of the
list is retrievable from the mapping) and order-independent (any
permutation of the list yields the same mapping). -/
theorem c8_amended_nodup_lossless_order_independent {V : Type}
    (l l' : List (WParams V)) (hnd : (l.map WParams.name).Nodup) (hp : l.Perm l') :
    (∀ p ∈ l, paramObjMap l p.name = some p.value) ∧ paramObjMap l = paramObjMap l' := by
  have hnd2 : ((l.map fun p => (p.name, p.value)).map Prod.fst).Nodup := by
    simpa [List.map_map, Function.comp] using hnd
  constructor
  · intro p hpmem
    unfold paramObjMap
    rw [fromEntries_eq_lookupLast]
    exact (lookupLast_eq_some_iff_of_nodup _ p.name hnd2 p.value).mpr
      (List.mem_map.mpr ⟨p, hpmem, rfl⟩)
  · funext k
    unfold paramObjMap
    rw [fromEntries_eq_lookupLast, fromEntries_eq_lookupLast]
    exact lookupLast_perm_of_nodup _ _ hnd2
      (hp.map fun p => (p.name, p.value)) k

theorem c8_amended_witness :
    ((([⟨"x", 1⟩, ⟨"y", 2⟩] : List (WParams Nat)).map WParams.name).Nodup ∧
      ([⟨"x", 1⟩, ⟨"y", 2⟩] : List (WParams Nat)).Perm [⟨"y", 2⟩, ⟨"x", 1⟩]) ∧
    ((∀ p ∈ ([⟨"x", 1⟩, ⟨"y", 2⟩] : List (WParams Nat)),
        paramObjMap ([⟨"x", 1⟩, ⟨"y", 2⟩] : List (WParams Nat)) p.name = some p.value) ∧
      paramObjMap ([⟨"x", 1⟩, ⟨"y", 2⟩] : List (WParams Nat))
        = paramObjMap ([⟨"y", 2⟩, ⟨"x", 1⟩] : List (WParams Nat))) :=
  ⟨⟨by decide, by decide⟩,
    c8_amended_nodup_lossless_order_independent _ _ (by decide) (by decide)⟩

/-- C9 counterexample: given no parameter list, the renderer passes
`undefined` (modelled `none`) — not an empty mapping — both as the
`initWidget` argument and as the widget's `parameters` prop. -/
theorem c9_counterexample :
    (rendererMount sampleRegistry "wip://a" none).2 = [⟨"wip://a", none⟩] ∧
    widgetRendererView sampleRegistry "wip://a"
        (rendererMount sampleRegistry "wip://a" none).1.params
      = RenderResult.widget "wip://a" none ∧
    (none : Option (ParamMap Nat)) ≠ some (fun _ => none) := by
  refine ⟨rfl, rfl, ?_⟩
  intro h
  exact Option.noConfusion h

/-- C9 (amended): given no parameter list, the renderer passes the absent
(`undefined`) parameter value to the widget, both as the argument of
`initWidget` (when the hook fires) and as the `parameters` prop of the
rendered instance. -/
theorem c9_amended_absent_parameters_pass_undefined {V : Type}
    (reg : WidgetRecord V) (uri : String) (w : WidgetComponent V)
    (hw : getWidget reg uri = some w) :
    (rendererMount reg uri none).1.params = none ∧
    (rendererMount reg uri none).2
      = (if w.hasInitWidget then [⟨uri, none⟩] else []) ∧
    widgetRendererView reg uri (rendererMount reg uri none).1.params
      = RenderResult.widget uri none := by
  refine ⟨rfl, ?_, ?_⟩
  · show initCallsOf reg uri (paramObjOf none) = _
    unfold initCallsOf
    rw [hw]
    rfl
  · show widgetRendererView reg uri (paramObjOf none) = _
    unfold widgetRendererView
    rw [hw]
    rfl

theorem c9_amended_witness :
    getWidget sampleRegistry "wip://a" = some sampleWidget ∧
    ((rendererMount sampleRegistry "wip://a" none).1.params = none ∧
      (rendererMount sampleRegistry "wip://a" none).2
        = (if sampleWidget.hasInitWidget then [⟨"wip://a", none⟩] else []) ∧
      widgetRendererView sampleRegistry "wip://a"
          (rendererMount sampleRegistry "wip://a" none).1.params
        = RenderResult.widget "wip://a" none) :=
  ⟨by decide,
    c9_amended_absent_parameters_pass_undefined sampleRegistry "wip://a" sampleWidget
      (by decide)⟩

/-! ## Claims about unknown identifiers -/

/-- C5: resolving an identifier not present in the registry returns
absent (`undefined`) — `getWidget` is total, it never raises — and the
renderer yields the explicit unknown-widget fallback content for it; the
mount effect invokes no hook for it either. -/
theorem c5_unknown_widget_fallback {V : Type} (reg : WidgetRecord V) (id : String)
    (h : id ∉ reg.map Prod.fst) :
    getWidget reg id = none ∧
    (∀ params, widgetRendererView reg id params
      = RenderResult.fallback ("❌ Unknown widget: " ++ id)) ∧
    (∀ parameters, (rendererMount reg id parameters).2 = []) := by
  have hg : getWidget reg id = none := by
    unfold getWidget
    rw [fromEntries_eq_lookupLast]
    cases hh : lookupLast reg id with
    | none => rfl
    | some w =>
      exact absurd ((lookupLast_isSome_iff reg id).mp (by rw [hh]; rfl)) h
  refine ⟨hg, ?_, ?_⟩
  · intro params
    unfold widgetRendererView
    rw [hg]
  · intro parameters
    show initCallsOf reg id (paramObjOf parameters) = []
    unfold initCallsOf
    rw [hg]

theorem c5_witness :
    "wip://missing" ∉ sampleRegistry.map Prod.fst ∧
    (getWidget sampleRegistry "wip://missing" = none ∧
      (∀ params, widgetRendererView sampleRegistry "wip://missing" params
        = RenderResult.fallback ("❌ Unknown widget: " ++ "wip://missing")) ∧
      (∀ parameters, (rendererMount sampleRegistry "wip://missing" parameters).2 = [])) :=
  ⟨by decide, c5_unknown_widget_fallback sampleRegistry "wip://missing" (by decide)⟩

/-! ## Claim about the init lifecycle (C4) -/

theorem initCallsOf_map_uri {V : Type} (reg : WidgetRecord V) (u : String)
    (params : Option (ParamMap V)) :
    (initCallsOf reg u params).map InitCall.uri
      = (if hasHook reg u then [u] else []) := by
  unfold initCallsOf hasHook
  cases getWidget reg u with
  | none => rfl
  | some w =>
    cases hw : w.hasInitWidget <;> simp [hw]

theorem rendererRunFrom_calls {V : Type} (reg : WidgetRecord V)
    (inputs : List (RendererInput V)) :
    ∀ st : RendererState V,
      (rendererRunFrom reg st inputs).2.map InitCall.uri
        = (uriChanges st.uri inputs).filter (fun u => hasHook reg u) := by
  induction inputs with
  | nil =>
    intro st
    rfl
  | cons i rest ih =>
    intro st
    cases i with
    | props u ps =>
      by_cases hu : u = st.uri
      · subst hu
        simp [rendererRunFrom, rendererStep, uriChanges, ih ⟨st.uri, st.params⟩]
      · simp only [rendererRunFrom, rendererStep, if_neg hu, uriChanges]
        rw [List.map_append, initCallsOf_map_uri, ih ⟨u, st.params⟩, List.filter_cons]
        cases hh : hasHook reg u <;> simp [hh]
    | setParams p =>
      simp only [rendererRunFrom, rendererStep, uriChanges]
      simpa using ih ⟨st.uri, p⟩

/-- C4: over any mount-then-events run of the renderer, the uris at which
the `initWidget` hook fires are exactly the mount uri followed by the uri
of each identifier-changing re-render, filtered by hook presence — one
firing per distinct identifier change; moreover a re-render with the
unchanged identifier and a `paramSetter` invocation each fire the hook
zero times. -/
theorem c4_init_once_per_identifier_change {V : Type} (reg : WidgetRecord V)
    (uri : String) (parameters : Option (List (WParams V)))
    (inputs : List (RendererInput V)) :
    ((rendererRun reg uri parameters inputs).2.map InitCall.uri
      = (uri :: uriChanges uri inputs).filter (fun u => hasHook reg u)) ∧
    (∀ (st : RendererState V) (ps : Option (List (WParams V))),
      (rendererStep reg st (RendererInput.props st.uri ps)).2 = []) ∧
    (∀ (st : RendererState V) (p : Option (ParamMap V)),
      (rendererStep reg st (RendererInput.setParams p)).2 = []) := by
  refine ⟨?_, ?_, ?_⟩
  · show ((initCallsOf reg uri (paramObjOf parameters)
        ++ (rendererRunFrom reg ⟨uri, paramObjOf parameters⟩ inputs).2).map InitCall.uri)
      = _
    rw [List.map_append, initCallsOf_map_uri,
      rendererRunFrom_calls reg inputs ⟨uri, paramObjOf parameters⟩,
      List.filter_cons]
    cases hh : hasHook reg uri <;> simp [hh]
  · intro st ps
    simp [rendererStep]
  · intro st p
    rfl

/-! ## Claim C1: the open-widget pointer invariant -/

theorem applyOp_preserves_pointer_invariant {V : Type} (reg : WidgetRecord V)
    (op : WidgetOp V) (s : HomeState V)
    (h : s.openWidgetUri = lastWidgetUri s.messages) :
    (applyOp reg s op).openWidgetUri = lastWidgetUri (applyOp reg s op).messages := by
  cases op with
  | add uri =>
    show (handleAddWidget reg uri s).openWidgetUri
      = lastWidgetUri (handleAddWidget reg uri s).messages
    unfold handleAddWidget
    cases getWidget reg uri with
    | none => exact h
    | some w =>
      show some uri = lastWidgetUri (s.messages ++ [⟨.widget, .widgetElem uri none⟩])
      unfold lastWidgetUri
      rw [List.reverse_append]
      rfl
  | openReply uri parameters text =>
    show (applyOp reg s (.openReply uri parameters text)).openWidgetUri
      = lastWidgetUri (applyOp reg s (.openReply uri parameters text)).messages
    unfold applyOp
    by_cases hu : uri = ""
    · simp only [if_pos hu]
      exact h
    · simp only [if_neg hu]
      unfold applyParsed
      simp only [ne_eq, hu, not_false_iff, if_true]
      show some uri = lastWidgetUri (s.messages ++ _)
      unfold lastWidgetUri
      rw [List.reverse_append]
      by_cases ht : text ≠ "" <;> simp [ht, extractUri]
  | remove =>
    show (handleRemoveWidget s).openWidgetUri
      = lastWidgetUri (handleRemoveWidget s).messages
    unfold handleRemoveWidget
    split
    · exact h
    · dsimp only
      split
      · next m hfind =>
        unfold lastWidgetUri
        rw [hfind]
      · next hfind =>
        unfold lastWidgetUri
        rw [hfind]

/-- C1: after any sequence of open-widget operations (a picker selection
or a decoded backend reply that opens a widget) and remove-widget
operations, the open-widget pointer equals the identifier of the most
recent widget message still present in the log, or is `none` when no
widget message remains.  Every prefix of a sequence is itself a
sequence, so the invariant holds after each operation. -/
theorem c1_open_widget_pointer_invariant {V : Type} (reg : WidgetRecord V)
    (ops : List (WidgetOp V)) :
    (runOps reg ops initialHomeState).openWidgetUri
      = lastWidgetUri (runOps reg ops initialHomeState).messages := by
  have main : ∀ (s : HomeState V), s.openWidgetUri = lastWidgetUri s.messages →
      (runOps reg ops s).openWidgetUri = lastWidgetUri (runOps reg ops s).messages := by
    induction ops with
    | nil => intro s h; exact h
    | cons op rest ih =>
      intro s h
      exact ih (applyOp reg s op) (applyOp_preserves_pointer_invariant reg op s h)
  exact main initialHomeState rfl

/-! ## Claims about assistant-entry processing (C2, C6) -/

/-- A decoder fixture: one content string decoding to a widget-opening
reply, everything else failing (as `JSON.parse` would on plain text). -/
def sampleDecoder : Decoder Nat :=
  fun s => if s = "reply" then some ⟨"wip://b", some [], "ok"⟩ else none

/-- The JSON text `\x7b"uri":"","parameters":[],"text":""\x7d`, which
parses to a reply whose uri and text are both empty. -/
def emptyReplyContent : String :=
  "\x7b\"uri\":\"\",\"parameters\":[],\"text\":\"\"\x7d"

/-- A decoder fixture mirroring `JSON.parse` on `emptyReplyContent`: that
string decodes to the empty-uri, empty-text reply; other strings fail. -/
def emptyReplyDecoder : Decoder Nat :=
  fun s => if s = emptyReplyContent then some ⟨"", some [], ""⟩ else none

theorem processAssistantEntry_eq_applyParsed {V : Type} (decode : Decoder V)
    (content : String) (w : Option String) (parsed : DecodedReply V)
    (hc : content ≠ "") (hd : decode content = some parsed) :
    processAssistantEntry decode content w = applyParsed parsed content := by
  unfold processAssistantEntry
  rw [if_neg hc, hd]

theorem processAssistantEntry_decode_failure {V : Type} (decode : Decoder V)
    (content : String) (w : Option String)
    (hc : content ≠ "") (hd : decode content = none) :
    processAssistantEntry decode content w
      = ([⟨ChatRole.assistant, MsgContent.text content⟩], none) := by
  unfold processAssistantEntry
  rw [if_neg hc, hd]

/-- C2 counterexample: on a successfully decoded assistant entry whose
uri and text are both empty, the orchestrator appends the raw content
string as the assistant message — not the decoded text, which is empty
and distinct from the raw content — while clearing the pointer. -/
theorem c2_counterexample :
    processAssistantEntry emptyReplyDecoder emptyReplyContent (some "wip://x")
      = ([⟨ChatRole.assistant, MsgContent.text emptyReplyContent⟩], none) ∧
    emptyReplyContent ≠ "" := by
  constructor
  · decide
  · decide

/-- C2 (amended): for a non-empty assistant content that decodes
successfully — a non-empty decoded uri appends a widget message for that
uri, sets the pointer to it, and appends the decoded text right after
the widget message when that text is non-empty; an empty decoded uri
clears the pointer and appends the decoded text as a plain assistant
message when it is non-empty, or the raw content when the decoded text
is empty too. -/
theorem c2_amended_decoded_reply_application {V : Type} (decode : Decoder V)
    (content : String) (w : Option String) (parsed : DecodedReply V)
    (hc : content ≠ "") (hd : decode content = some parsed) :
    (parsed.uri ≠ "" →
      processAssistantEntry decode content w
        = (⟨ChatRole.widget, MsgContent.widgetElem parsed.uri parsed.parameters⟩ ::
            (if parsed.text ≠ "" then [⟨ChatRole.assistant, MsgContent.text parsed.text⟩]
              else []),
          some parsed.uri)) ∧
    (parsed.uri = "" → parsed.text ≠ "" →
      processAssistantEntry decode content w
        = ([⟨ChatRole.assistant, MsgContent.text parsed.text⟩], none)) ∧
    (parsed.uri = "" → parsed.text = "" →
      processAssistantEntry decode content w
        = ([⟨ChatRole.assistant, MsgContent.text content⟩], none)) := by
  rw [processAssistantEntry_eq_applyParsed decode content w parsed hc hd]
  unfold applyParsed
  refine ⟨?_, ?_, ?_⟩
  · intro hu
    rw [if_pos hu]
  · intro hu ht
    rw [if_neg (fun hne => hne hu), if_pos ht]
  · intro hu ht
    rw [if_neg (fun hne => hne hu), if_neg (fun hne => hne ht)]

theorem c2_amended_witness :
    ("reply" ≠ "" ∧ sampleDecoder "reply" = some ⟨"wip://b", some [], "ok"⟩) ∧
    processAssistantEntry sampleDecoder "reply" none
      = (⟨ChatRole.widget, MsgContent.widgetElem "wip://b" (some [])⟩ ::
          (if "ok" ≠ "" then [⟨ChatRole.assistant, MsgContent.text "ok"⟩] else []),
        some "wip://b") :=
  ⟨⟨by decide, by decide⟩,
    (c2_amended_decoded_reply_application sampleDecoder "reply" none
      ⟨"wip://b", some [], "ok"⟩ (by decide) (by decide)).1 (by decide)⟩

/-- C6 counterexample: an assistant entry with empty content — which
`JSON.parse` would reject — is skipped entirely by the truthiness guard
`msg.content`: no message is appended and the pointer is left unchanged,
not cleared. -/
theorem c6_counterexample :
    processAssistantEntry (fun _ => (none : Option (DecodedReply Nat))) ""
        (some "wip://a")
      = ([], some "wip://a") ∧
    (some "wip://a" : Option String) ≠ none ∧
    ([] : List (ChatMessage Nat)).length ≠ 1 := by
  refine ⟨?_, ?_, ?_⟩ <;> decide

/-- C6 (amended): for every assistant entry with non-empty content whose
content fails to decode, the orchestrator appends exactly the one plain
assistant message carrying the raw content and clears the open-widget
pointer (the decode is applied once; the function is total, it neither
retries nor raises). -/
theorem c6_amended_decode_failure_raw_text {V : Type} (decode : Decoder V)
    (content : String) (w : Option String)
    (hc : content ≠ "") (hd : decode content = none) :
    processAssistantEntry decode content w
      = ([⟨ChatRole.assistant, MsgContent.text content⟩], none) := by
  unfold processAssistantEntry
  rw [if_neg hc, hd]

theorem c6_amended_witness :
    ("oops" ≠ "" ∧ (fun _ => (none : Option (DecodedReply Nat))) "oops" = none) ∧
    processAssistantEntry (fun _ => (none : Option (DecodedReply Nat))) "oops"
        (some "wip://a")
      = ([⟨ChatRole.assistant, MsgContent.text "oops"⟩], none) :=
  ⟨⟨by decide, rfl⟩,
    c6_amended_decode_failure_raw_text (fun _ => none) "oops" (some "wip://a")
      (by decide) rfl⟩

/-! ## Claim C7: context-injection failure never blocks the turn -/

theorem applyParsed_no_error_role {V : Type} (parsed : DecodedReply V) (raw : String) :
    ∀ m ∈ (applyParsed parsed raw).1, m.role ≠ ChatRole.error := by
  intro m hm
  unfold applyParsed at hm
  by_cases hu : parsed.uri ≠ ""
  · rw [if_pos hu] at hm
    rcases List.mem_cons.mp hm with hm | hm
    · rw [hm]
      intro hcon
      exact ChatRole.noConfusion hcon
    · by_cases ht : parsed.text ≠ ""
      · rw [if_pos ht, List.mem_singleton] at hm
        rw [hm]
        intro hcon
        exact ChatRole.noConfusion hcon
      · rw [if_neg ht] at hm
        exact absurd hm (List.not_mem_nil m)
  · rw [if_neg hu] at hm
    by_cases ht : parsed.text ≠ ""
    · rw [if_pos ht, List.mem_singleton] at hm
      rw [hm]
      intro hcon
      exact ChatRole.noConfusion hcon
    · rw [if_neg ht, List.mem_singleton] at hm
      rw [hm]
      intro hcon
      exact ChatRole.noConfusion hcon

theorem processAssistantEntry_no_error_role {V : Type} (decode : Decoder V)
    (c : String) (w : Option String) :
    ∀ m ∈ (processAssistantEntry decode c w).1, m.role ≠ ChatRole.error := by
  intro m hm
  by_cases hc : c = ""
  · unfold processAssistantEntry at hm
    rw [if_pos hc] at hm
    exact absurd hm (List.not_mem_nil m)
  · cases hd : decode c with
    | some parsed =>
      rw [processAssistantEntry_eq_applyParsed decode c w parsed hc hd] at hm
      exact applyParsed_no_error_role parsed c m hm
    | none =>
      rw [processAssistantEntry_decode_failure decode c w hc hd,
        List.mem_singleton] at hm
      rw [hm]
      intro hcon
      exact ChatRole.noConfusion hcon

theorem processEntry_no_error_role {V : Type} (decode : Decoder V) (e : BackendEntry)
    (w : Option String) :
    ∀ m ∈ (processEntry decode e w).1, m.role ≠ ChatRole.error := by
  intro m hm
  cases e with
  | tool t r =>
    by_cases hr : r = ""
    · simp [processEntry, hr] at hm
    · simp [processEntry, hr] at hm
      rw [hm]
      intro hcon
      exact ChatRole.noConfusion hcon
  | assistant c =>
    exact processAssistantEntry_no_error_role decode c w m hm
  | other =>
    simp [processEntry] at hm

theorem processEntries_no_error_role {V : Type} (decode : Decoder V)
    (entries : List BackendEntry) :
    ∀ (w : Option String), ∀ m ∈ (processEntries decode entries w).1,
      m.role ≠ ChatRole.error := by
  induction entries with
  | nil =>
    intro w m hm
    simp [processEntries] at hm
  | cons e rest ih =>
    intro w m hm
    simp only [processEntries, List.mem_append] at hm
    cases hm with
    | inl hm => exact processEntry_no_error_role decode e w m hm
    | inr hm => exact ih (processEntry decode e w).2 m hm

/-- C7: when the context-injection step fails (the context read throws,
or the injection request itself throws), the failure is swallowed: the
chat call is still issued with the original (trimmed) user message, the
resulting state is identical to the one produced had the injection
succeeded, and — when the chat call itself succeeds — no error-role
message is appended for the injection failure. -/
theorem c7_injection_failure_never_blocks_turn {V : Type} (decode : Decoder V)
    (env : SendEnv V) (input : String) (s : HomeState V)
    (hne : jsTrim input ≠ "")
    (_hfail : env.contextResult = Except.error () ∨ env.injectionResult = Except.error ()) :
    (sendMessage decode env input false s).chatCalled = true ∧
    (sendMessage decode env input false s).chatMessage = some (jsTrim input) ∧
    (sendMessage decode env input false s).state
      = (sendMessage decode ⟨Except.ok none, Except.ok (), env.chatResult⟩
          input false s).state ∧
    (∀ entries, env.chatResult = Except.ok entries →
      ∀ m ∈ (sendMessage decode env input false s).state.messages,
        m ∈ s.messages ∨ m.role ≠ ChatRole.error) := by
  unfold sendMessage
  rw [if_neg (by simp [hne])]
  rw [if_neg (by simp [hne])]
  refine ⟨?_, ?_, ?_, ?_⟩
  · cases env.chatResult <;> rfl
  · cases env.chatResult <;> rfl
  · cases env.chatResult <;> rfl
  · intro entries hchat m hm
    rw [hchat] at hm
    simp only [List.mem_append] at hm
    rcases hm with (hm | hm) | hm
    · exact Or.inl hm
    · right
      simp at hm
      rw [hm]
      intro hcon
      exact ChatRole.noConfusion hcon
    · exact Or.inr
        (processEntries_no_error_role decode entries s.openWidgetUri m hm)

theorem c7_witness :
    (jsTrim "hi" ≠ "" ∧
      (⟨Except.error (), Except.ok (), Except.ok []⟩ : SendEnv Nat).contextResult
        = Except.error ()) ∧
    ((sendMessage (fun _ => none) (⟨Except.error (), Except.ok (), Except.ok []⟩ :
        SendEnv Nat) "hi" false initialHomeState).chatCalled = true ∧
      (sendMessage (fun _ => none) (⟨Except.error (), Except.ok (), Except.ok []⟩ :
        SendEnv Nat) "hi" false initialHomeState).chatMessage = some (jsTrim "hi")) :=
  ⟨⟨by decide, rfl⟩,
    ⟨(c7_injection_failure_never_blocks_turn (fun _ => none)
        ⟨Except.error (), Except.ok (), Except.ok []⟩ "hi" initialHomeState
        (by decide) (Or.inl rfl)).1,
      (c7_injection_failure_never_blocks_turn (fun _ => none)
        ⟨Except.error (), Except.ok (), Except.ok []⟩ "hi" initialHomeState
        (by decide) (Or.inl rfl)).2.1⟩⟩

/-! ## Claim C10: the picker path is a silent no-op on unknown uris -/

/-- C10: opening a widget through the picker (`handleAddWidget`) with an
identifier absent from the registry changes nothing — no message of any
kind is appended and the pointer is untouched — whereas the agent-driven
path for a (non-empty) unknown identifier appends a widget message whose
renderer resolves to the explicit unknown-widget fallback. -/
theorem c10_picker_unknown_is_silent_noop {V : Type} (reg : WidgetRecord V)
    (uri : String) (s : HomeState V) (h : getWidget reg uri = none) :
    handleAddWidget reg uri s = s ∧
    (uri ≠ "" → ∀ (raw : String) (parameters : Option (List (WParams V)))
        (text : String),
      (applyParsed (⟨uri, parameters, text⟩ : DecodedReply V) raw).1.head?
          = some ⟨ChatRole.widget, MsgContent.widgetElem uri parameters⟩ ∧
        widgetRendererView reg uri (paramObjOf parameters)
          = RenderResult.fallback ("❌ Unknown widget: " ++ uri)) := by
  constructor
  · unfold handleAddWidget
    rw [h]
  · intro hu raw parameters text
    constructor
    · unfold applyParsed
      rw [if_pos (show (⟨uri, parameters, text⟩ : DecodedReply V).uri ≠ "" from hu)]
      rfl
    · unfold widgetRendererView
      rw [h]

theorem c10_witness :
    getWidget sampleRegistry "wip://nope" = none ∧
    handleAddWidget sampleRegistry "wip://nope" initialHomeState = initialHomeState ∧
    (applyParsed (⟨"wip://nope", none, ""⟩ : DecodedReply Nat) "raw").1.head?
        = some ⟨ChatRole.widget, MsgContent.widgetElem "wip://nope" none⟩ ∧
    widgetRendererView sampleRegistry "wip://nope" (paramObjOf none)
      = RenderResult.fallback ("❌ Unknown widget: " ++ "wip://nope") :=
  ⟨by decide,
    (c10_picker_unknown_is_silent_noop sampleRegistry "wip://nope" initialHomeState
      (by decide)).1,
    ((c10_picker_unknown_is_silent_noop sampleRegistry "wip://nope" initialHomeState
      (by decide)).2 (by decide) "raw" none "").1,
    ((c10_picker_unknown_is_silent_noop sampleRegistry "wip://nope" initialHomeState
      (by decide)).2 (by decide) "raw" none "").2⟩
